import Mathlib

/-!
Shallow embedding of `scarches/models/expimap/expimap_model.py` (class
`EXPIMAP`), restricted to the parts the verified claims concern:
construction (`__init__`), `terms_genes`, `latent_directions`,
`latent_enrich` and `load_query_data`.

Modelling choices:
- Python floats / numpy float arrays are embedded as `ℚ`; 2-D arrays
  (`[cells × terms]` or `[genes × terms]`) as `List (List ℚ)` (row major).
- External library functions (`np.log`, `np.sqrt`, `scipy.special.erfc`)
  are parameters of the embedded computations; theorems that need a fact
  about them (e.g. `erfc 0 = 1`) take it as a hypothesis.
- Code that raises a Python exception is embedded as `Except PyError`;
  the error constructors correspond to the `raise` sites of the source.
- External collaborators (the `expiMap` network, the trainer, `get_latent`
  from `CVAELatentsMixin`, numpy random sampling, the base `SurgeryMixin`
  delegation) are abstracted as function parameters; everything the
  claims quantify over is computed by the embedded code itself.
-/

namespace Scarches

/-- A numpy 2-D float array, row major. -/
abbrev Mat := List (List ℚ)

/-- The Python exceptions raised by the embedded methods, one constructor
per `raise` site (plus numpy's out-of-range row-indexing error). -/
inductive PyError where
  /-- `raise ValueError('Please provide mask.')` in `__init__`. -/
  | provideMask
  /-- `raise ValueError('The list of terms should have the same length as the mask.')` in `terms_genes`. -/
  | termsLength
  /-- numpy `IndexError` from `I[i]` with `i` out of range in `terms_genes`. -/
  | indexError
  /-- `raise ValueError("Unrecognized method for getting the latent direction.")` in `latent_directions`. -/
  | unrecognizedMethod
  /-- `raise ValueError("groups should be a string or a dict.")` in `latent_enrich`. -/
  | groupsType
  /-- `raise ValueError("comparison should be ... or among the passed groups")` in `latent_enrich`. -/
  | comparisonGuard
  /-- `raise ValueError('Provide new ext_mask')` in `load_query_data`. -/
  | provideNewExtMask
deriving DecidableEq

/-- Column `j` of a row-major matrix: numpy `m[:, j]` (out-of-range
entries default to 0; the claims only use in-range columns). -/
def col (m : Mat) (j : ℕ) : List ℚ :=
  m.map (fun row => row.getD j 0)

/-- Number of columns of a row-major matrix (width of the first row). -/
def nColsM (m : Mat) : ℕ := (m.headD []).length

/-- numpy `np.abs(v).sum()` for a 1-D array. -/
def absSum (v : List ℚ) : ℚ := (v.map (fun x => |x|)).sum

/-- numpy `np.mean(v)` for a 1-D array (`sum / length`). -/
def listMean (v : List ℚ) : ℚ := v.sum / (v.length : ℚ)

/-- numpy `m.T` for a row-major matrix. -/
def transposeM (m : Mat) : Mat :=
  (List.range (nColsM m)).map (fun j => col m j)

/-! ## `EXPIMAP.__init__` (lines 51-143)

The wrapper's stored attributes. The `expiMap` network instantiation at
the end of `__init__` is an external collaborator and is not part of the
state carried here; every other assignment of `__init__` is. -/

/-- The attributes stored on `self` by `EXPIMAP.__init__`. -/
structure EXPIMAPState where
  condition_key_ : Option String
  conditions_ : List String
  hidden_layer_sizes_ : List ℕ
  dr_rate_ : ℚ
  recon_loss_ : String
  use_bn_ : Bool
  use_ln_ : Bool
  input_dim_ : ℕ
  use_l_encoder_ : Bool
  decoder_last_layer_ : Option String
  mask_ : Mat
  latent_dim_ : ℕ
  ext_mask_ : Option Mat
  n_ext_ : ℕ
  n_ext_m_ : ℕ
  soft_mask_ : Bool
  soft_ext_mask_ : Bool
  use_hsic_ : Bool
  hsic_one_vs_all_ : Bool
  is_trained_ : Bool
deriving DecidableEq

/-- `EXPIMAP.__init__`.  The `adata` collaborator is abstracted by its
three reads: `obsUnique k` embeds `adata.obs[k].unique().tolist()`,
`varm k` embeds `adata.varm[k]` (a genes × terms array, `None` when the
key is absent) and `n_vars` embeds `adata.n_vars`.  Raises
`ValueError('Please provide mask.')` when no mask is resolvable;
otherwise stores the attributes exactly as the source does: in
particular `latent_dim_ = len(mask_)` and
`use_hsic_ = use_hsic and n_ext > 0`. -/
def EXPIMAP_init
    (obsUnique : String → List String) (varm : String → Option Mat) (n_vars : ℕ)
    (condition_key : Option String) (conditions : Option (List String))
    (hidden_layer_sizes : List ℕ) (dr_rate : ℚ) (recon_loss : String)
    (use_l_encoder : Bool) (use_bn : Bool) (use_ln : Bool)
    (mask : Option Mat) (mask_key : String) (decoder_last_layer : Option String)
    (soft_mask : Bool) (n_ext : ℕ) (n_ext_m : ℕ)
    (use_hsic : Bool) (hsic_one_vs_all : Bool)
    (ext_mask : Option Mat) (soft_ext_mask : Bool) :
    Except PyError EXPIMAPState :=
  if mask.isNone ∧ (varm mask_key).isNone then
    .error .provideMask
  else
    let conditionsR : List String :=
      match conditions with
      | none =>
        match condition_key with
        | some k => obsUnique k
        | none => []
      | some cs => cs
    let maskR : Mat :=
      match mask with
      | some m => m
      | none => transposeM ((varm mask_key).getD [])
    .ok {
      condition_key_ := condition_key
      conditions_ := conditionsR
      hidden_layer_sizes_ := hidden_layer_sizes
      dr_rate_ := dr_rate
      recon_loss_ := recon_loss
      use_bn_ := use_bn
      use_ln_ := use_ln
      input_dim_ := n_vars
      use_l_encoder_ := use_l_encoder
      decoder_last_layer_ := decoder_last_layer
      mask_ := maskR
      latent_dim_ := maskR.length
      ext_mask_ := ext_mask
      n_ext_ := n_ext
      n_ext_m_ := n_ext_m
      soft_mask_ := soft_mask
      soft_ext_mask_ := soft_ext_mask
      use_hsic_ := use_hsic && decide (0 < n_ext)
      hsic_one_vs_all_ := hsic_one_vs_all
      is_trained_ := false
    }

/-! ## `EXPIMAP.terms_genes` (lines 180-187) -/

/-- The `terms` argument of `terms_genes`: either a key into `adata.uns`
or an explicit list of term names. -/
inductive TermsArg where
  | key (s : String)
  | list (l : List String)

/-- Boolean-mask indexing `self.adata.var_names[I[i]].tolist()` for one
row: keeps the gene names whose mask entry is non-zero (the source casts
the mask with `dtype=bool`, so any non-zero entry selects). -/
def rowGenes (var_names : List String) (row : List ℚ) : List String :=
  ((var_names.zip row).filter (fun p => decide (p.2 ≠ 0))).map (fun p => p.1)

/-- The dict comprehension
`{term: self.adata.var_names[I[i]].tolist() for i, term in enumerate(terms)}`
starting at row index `i`.  Row access `I[i]` with `i` out of range is a
numpy `IndexError`. -/
def terms_genes_go (var_names : List String) (mask : Mat) :
    ℕ → List String → Except PyError (List (String × List String))
  | _, [] => .ok []
  | i, t :: ts =>
    match mask[i]? with
    | none => .error .indexError
    | some row =>
      (terms_genes_go var_names mask (i + 1) ts).map
        (fun rest => (t, rowGenes var_names row) :: rest)

/-- `EXPIMAP.terms_genes`.  `uns k` embeds `self.adata.uns[k]` (the
stored term list), `var_names` embeds `self.adata.var_names.tolist()`
and `mask` embeds `self.mask_`.  The returned Python dict is embedded as
the comprehension's list of key-value pairs in evaluation order. -/
def terms_genes (uns : String → List String) (var_names : List String)
    (mask : Mat) (terms : TermsArg) :
    Except PyError (List (String × List String)) :=
  match terms with
  | .key s => terms_genes_go var_names mask 0 (uns s)
  | .list l =>
    if l.length ≠ mask.length then .error .termsLength
    else terms_genes_go var_names mask 0 l

/-! ## `EXPIMAP.load_query_data` (lines 342-381) -/

/-- The `params` dict built by `load_query_data` before delegating to
`super().load_query_data(**params)` (the `adata` and `reference_model`
entries are the external collaborators themselves and carry no
information for the claims; `none` in an optional field means the key is
absent from the dict). -/
structure QueryParams where
  freeze : Bool
  freeze_expression : Bool
  remove_dropout : Bool
  n_ext : Option ℕ
  n_ext_m : Option ℕ
  ext_mask : Option Mat
  soft_ext_mask : Option Bool
deriving DecidableEq

/-- The parameter-dict construction of `EXPIMAP.load_query_data`,
including the `raise ValueError('Provide new ext_mask')` guard that
fires when `new_n_ext_m` is given without `new_ext_mask`. -/
def load_query_data_params
    (freeze freeze_expression remove_dropout : Bool)
    (new_n_ext new_n_ext_m : Option ℕ)
    (new_ext_mask : Option Mat) (new_soft_ext_mask : Bool) :
    Except PyError QueryParams :=
  let p0 : QueryParams :=
    { freeze := freeze, freeze_expression := freeze_expression,
      remove_dropout := remove_dropout,
      n_ext := none, n_ext_m := none, ext_mask := none, soft_ext_mask := none }
  let p1 : QueryParams :=
    match new_n_ext with
    | some k => { p0 with n_ext := some k }
    | none => p0
  match new_n_ext_m with
  | some k =>
    match new_ext_mask with
    | none => .error .provideNewExtMask
    | some em =>
      .ok { p1 with n_ext_m := some k, ext_mask := some em,
                    soft_ext_mask := some new_soft_ext_mask }
  | none => .ok p1

/-- `EXPIMAP.load_query_data`: builds the parameter dict and delegates to
the base surgery mechanism (`super().load_query_data(**params)`),
abstracted as `delegate`.  The post-delegation `unfreeze_ext` loop only
flips `requires_grad` flags on the delegated model's parameters, i.e. it
acts inside `delegate`'s result; it is therefore absorbed into
`delegate` here.  An error structurally precedes the delegation: no new
model value is ever produced on the error path. -/
def EXPIMAP_load_query_data {M : Type} (delegate : QueryParams → M)
    (freeze freeze_expression _unfreeze_ext remove_dropout : Bool)
    (new_n_ext new_n_ext_m : Option ℕ)
    (new_ext_mask : Option Mat) (new_soft_ext_mask : Bool) :
    Except PyError M :=
  (load_query_data_params freeze freeze_expression remove_dropout
    new_n_ext new_n_ext_m new_ext_mask new_soft_ext_mask).map delegate

/-! ## `EXPIMAP.latent_directions` (lines 189-221)

`terms_weights` embeds `self.model.decoder.L0.expr_L.weight.data`, a
`[n_genes × n_terms]` array (rows = genes, columns = terms); all numpy
reductions in the source are along `dim=0`, i.e. per term column. -/

/-- Per-column result of the `"sum"` mode: `signs = weights.sum(0)`, then
`signs[signs>0] = 1.`, `signs[signs<0] = -1.` applied sequentially per
entry (a zero sum stays 0). -/
def sumSign (w : List ℚ) : ℚ :=
  let s := w.sum
  let s1 := if s > 0 then 1 else s
  if s1 < 0 then -1 else s1

/-- Per-column `num_nz = torch.count_nonzero(terms_weights, dim=0)`. -/
def numNz (w : List ℚ) : ℕ := (w.filter (fun x => decide (x ≠ 0))).length

/-- Per-column `upreg_genes = torch.count_nonzero(terms_weights > 0, dim=0)`. -/
def upregGenes (w : List ℚ) : ℕ := (w.filter (fun x => decide (0 < x))).length

/-- Per-column `signs = upreg_genes / (num_nz+(num_nz==0))`: the ratio of
positive to non-zero weights, with the `+ (num_nz==0)` divisor guard. -/
def countsRatio (w : List ℚ) : ℚ :=
  (upregGenes w : ℚ) / ((numNz w : ℚ) + (if numNz w = 0 then 1 else 0))

/-- Per-column result of the `"counts"` mode sign: the sequential masked
assignments `signs[signs>0.5]=1.`, `signs[signs<0.5]=-1.`,
`signs[signs==0.5]=0`, `signs[num_nz==0]=0` applied to `countsRatio`. -/
def countsSign (w : List ℚ) : ℚ :=
  let s0 := countsRatio w
  let s1 := if s0 > 1/2 then 1 else s0
  let s2 := if s1 < 1/2 then -1 else s1
  let s3 := if s2 = 1/2 then 0 else s2
  if numNz w = 0 then 0 else s3

/-- Per-column result of the `"counts"` mode confidence:
`confidence = np.abs(ratio-0.5)/0.5` then `confidence[num_nz==0] = 0`. -/
def countsConfidence (w : List ℚ) : ℚ :=
  if numNz w = 0 then 0 else |countsRatio w - 1/2| / (1/2)

/-- `EXPIMAP.latent_directions`.  The result is the list of
`(key, value)` pairs written to the auxiliary-output store `adata.uns`,
in write order: the sign array under `key_added` and — only for the
`"counts"` mode with `get_confidence` (in `"sum"` mode `confidence` is
`None`) — the confidence array under `key_added + '_confindence'`
(spelled exactly as in the source).  Any other method name raises
`ValueError`. -/
def latent_directions (method : String) (get_confidence : Bool)
    (terms_weights : Mat) (key_added : String) :
    Except PyError (List (String × List ℚ)) :=
  if method == "sum" then
    .ok [(key_added, (transposeM terms_weights).map sumSign)]
  else if method == "counts" then
    let signs := (transposeM terms_weights).map countsSign
    let confidence := (transposeM terms_weights).map countsConfidence
    .ok ((key_added, signs) ::
      (if get_confidence then [(key_added ++ "_confindence", confidence)] else []))
  else
    .error .unrecognizedMethod

/-! ## `EXPIMAP.latent_enrich` (lines 223-340) -/

/-- A Python value that is either a string or a list of strings — the
shape of the `comparison` argument. -/
inductive StrOrList where
  | str (s : String)
  | list (l : List String)

/-- Python `set(comparison)`: for a string this iterates the string's
characters (each a length-1 string), for a list its elements. -/
def pySetElems : StrOrList → List String
  | .str s => s.data.map (fun c => String.mk [c])
  | .list l => l

/-- Python `comparison != "rest"` (a list never equals a string). -/
def isRestLiteral : StrOrList → Bool
  | .str s => s == "rest"
  | .list _ => false

/-- The guard of line 254:
`comparison != "rest" and set(comparison).issubset(cats)`. -/
def comparisonGuardFails (comparison : StrOrList) (cats : List String) : Bool :=
  !(isRestLiteral comparison) &&
    (pySetElems comparison).all (fun x => decide (x ∈ cats))

/-- Python `needle == hay[:len(needle)]` on character lists (helper for
substring membership). -/
def charsLeadWith : List Char → List Char → Bool
  | [], _ => true
  | _ :: _, [] => false
  | a :: as, b :: bs => a == b && charsLeadWith as bs

/-- Python `needle in hay` substring test on character lists. -/
def charsContain (needle : List Char) : List Char → Bool
  | [] => charsLeadWith needle []
  | b :: bs => charsLeadWith needle (b :: bs) || charsContain needle bs

/-- Python `cat in comparison` of line 263: substring membership when
`comparison` is a string, element membership when it is a list. -/
def pyInComparison (cat : String) : StrOrList → Bool
  | .str s => charsContain cat.data s.data
  | .list l => l.contains cat

/-- The normalization of lines 259-260: a non-`"rest"` string comparison
is wrapped into a one-element list. -/
def normalizeComparison : StrOrList → StrOrList
  | .str s => if s == "rest" then .str s else .list [s]
  | .list l => .list l

/-- The `groups` argument of `latent_enrich`: a categorical column name,
an explicit mapping category → cell-id list, or anything else. -/
inductive GroupsArg where
  | str (s : String)
  | dict (d : List (String × List String))
  | other

/-- Lines 238-252: resolve `groups` into the category list `cats`
(`colUnique g` embeds `adata.obs[g].unique()`); any other input shape
raises `ValueError("groups should be a string or a dict.")`. -/
def resolveCats (colUnique : String → List String) :
    GroupsArg → Except PyError (List String)
  | .str s => .ok (colUnique s)
  | .dict d => .ok (d.map (fun p => p.1))
  | .other => .error .groupsType

/-- The per-term score triple stored in `scores[cat]`. -/
structure TermScore where
  p_h0 : ℚ
  p_h1 : ℚ
  bf : ℚ
deriving DecidableEq

/-- Lines 329-336 for one term column: `p_h0 = np.mean(to_reduce,
axis=0)`, `p_h1 = 1 - p_h0`, `bf = np.log(p_h0+eps) - np.log(p_h1+eps)`
with `eps = 1e-12`, then `p_h0[zeros_mask] = 0`, `p_h1[zeros_mask] = 0`,
`bf[zeros_mask] = 0`.  `log` abstracts `np.log`; `zm` is the term's
`zeros_mask` entry. -/
def termScores (log : ℚ → ℚ) (to_reduce : List ℚ) (zm : Bool) : TermScore :=
  let p_h0 := listMean to_reduce
  let p_h1 := 1 - p_h0
  let epsilon : ℚ := 1 / 10 ^ 12
  let bf := log (p_h0 + epsilon) - log (p_h1 + epsilon)
  if zm then ⟨0, 0, 0⟩ else ⟨p_h0, p_h1, bf⟩

/-- Line 298-299 / 314-316: `z *= directions` multiplies every row
elementwise by the per-term direction vector (identity when
`use_directions` is off and `directions` is `None`). -/
def applyDirections (dirs : Option (List ℚ)) (m : Mat) : Mat :=
  match dirs with
  | none => m
  | some d => m.map (fun row => (row.zip d).map (fun p => p.1 * p.2))

/-- Lines 301-303 / 318-322: `z[:, select_terms]` column selection
(identity when `select_terms` is `None`). -/
def selectTermsCols (sel : Option (List ℕ)) (m : Mat) : Mat :=
  match sel with
  | none => m
  | some s => m.map (fun row => s.map (fun j => row.getD j 0))

/-- Line 305 for one term column: `to_reduce = z0 > z1`, the boolean
matrix as 0/1 values (its column mean is `p_h0`). -/
def toReduceCol (a b : List ℚ) : List ℚ :=
  (a.zip b).map (fun p => if p.2 < p.1 then 1 else 0)

/-- Elementwise combination of four equally-indexed columns (numpy
broadcasting of lines 324-325 restricted to one term column). -/
def zip4With (f : ℚ → ℚ → ℚ → ℚ → ℚ) :
    List ℚ → List ℚ → List ℚ → List ℚ → List ℚ
  | a :: as, b :: bs, c :: cs, d :: ds => f a b c d :: zip4With f as bs cs ds
  | _, _, _, _ => []

/-- Line 324 for one cell:
`(means1 - means0) / np.sqrt(2 * (vars0 + vars1))`; `sqrt` abstracts
`np.sqrt`. -/
def zStat (sqrt : ℚ → ℚ) (m0 v0 m1 v1 : ℚ) : ℚ :=
  (m1 - m0) / sqrt (2 * (v0 + v1))

/-- Line 324 for one term column: the standardized differences `z` of
all sampled cells. -/
def zCol (sqrt : ℚ → ℚ) (m0 v0 m1 v1 : List ℚ) : List ℚ :=
  zip4With (fun a b c d => zStat sqrt a b c d) m0 v0 m1 v1

/-- Line 325 for one term column: `to_reduce = 0.5 * erfc(to_reduce)`;
`erfc` abstracts `scipy.special.erfc`. -/
def toReduceExactCol (sqrt erfc : ℚ → ℚ) (m0 v0 m1 v1 : List ℚ) : List ℚ :=
  (zCol sqrt m0 v0 m1 v1).map (fun z => (1/2) * erfc z)

/-- Lines 296-338, `exact=False` branch, for one category: `z0`/`z1` are
the point-estimate latent matrices (`[cells × terms]`) returned by
`get_latent` for the category sample and the comparison sample.  The
directions/select-terms transforms are applied to both, then per term
column: `to_reduce = z0 > z1`, the zero-sum mask
`(np.abs(z0).sum(0) == 0) | (np.abs(z1).sum(0) == 0)` and the score
triple. -/
def enrich_cat_nonexact (log : ℚ → ℚ) (dirs : Option (List ℚ))
    (sel : Option (List ℕ)) (z0 z1 : Mat) : List TermScore :=
  let z0t := selectTermsCols sel (applyDirections dirs z0)
  let z1t := selectTermsCols sel (applyDirections dirs z1)
  (List.range (nColsM z0t)).map (fun j =>
    termScores log (toReduceCol (col z0t j) (col z1t j))
      (decide (absSum (col z0t j) = 0) || decide (absSum (col z1t j) = 0)))

/-- Lines 296-338, `exact=True` branch, for one category: `means0/vars0`
and `means1/vars1` are the per-cell Gaussian posterior parameters
returned by `get_latent` for the two samples.  Directions are applied to
the means only; `select_terms` subsets means and variances; per term
column: `z`, `to_reduce = 0.5*erfc(z)`, the zero-sum mask computed on the
transformed means, and the score triple. -/
def enrich_cat_exact (sqrt erfc log : ℚ → ℚ) (dirs : Option (List ℚ))
    (sel : Option (List ℕ)) (means0 vars0 means1 vars1 : Mat) : List TermScore :=
  let m0 := selectTermsCols sel (applyDirections dirs means0)
  let m1 := selectTermsCols sel (applyDirections dirs means1)
  let v0 := selectTermsCols sel vars0
  let v1 := selectTermsCols sel vars1
  (List.range (nColsM m0)).map (fun j =>
    termScores log
      (toReduceExactCol sqrt erfc (col m0 j) (col v0 j) (col m1 j) (col v1 j))
      (decide (absSum (col m0 j) = 0) || decide (absSum (col m1 j) = 0)))

/-- `EXPIMAP.latent_enrich`, control flow.  `catScores cat` abstracts
the body of the per-category loop after the samples are drawn
(`np.random.choice`) and encoded (`get_latent`): it is
`enrich_cat_nonexact`/`enrich_cat_exact` applied to the encoder outputs
for `cat` and its comparison sample.  The result is the `scores` dict
written to `adata.uns[key_added]` at line 340, as `(category, triple)`
pairs in loop order.  The guard of line 254 fires before any category is
processed and before the store write: on the error path no scores value
exists at all. -/
def latent_enrich (colUnique : String → List String) (groups : GroupsArg)
    (comparison : StrOrList) (catScores : String → List TermScore) :
    Except PyError (List (String × List TermScore)) := do
  let cats ← resolveCats colUnique groups
  if comparisonGuardFails comparison cats then
    throw .comparisonGuard
  else
    let comparison2 := normalizeComparison comparison
    pure ((cats.filter (fun cat => !(pyInComparison cat comparison2))).map
      (fun cat => (cat, catScores cat)))

/-- The `j`-th term column of a latent matrix after the
directions/select-terms transforms of `latent_enrich` (applied to point
estimates in `exact=False` mode and to the posterior means in
`exact=True` mode). -/
def meansCol (dirs : Option (List ℚ)) (sel : Option (List ℕ)) (m : Mat) (j : ℕ) : List ℚ :=
  col (selectTermsCols sel (applyDirections dirs m)) j

/-- The `j`-th term column of a posterior-variance matrix after the
select-terms transform (the source never multiplies variances by
directions). -/
def varsCol (sel : Option (List ℕ)) (v : Mat) (j : ℕ) : List ℚ :=
  col (selectTermsCols sel v) j

/-- Number of term columns after the `latent_enrich` transforms. -/
def nColsT (dirs : Option (List ℚ)) (sel : Option (List ℕ)) (m : Mat) : ℕ :=
  nColsM (selectTermsCols sel (applyDirections dirs m))

/-- A concrete constructed wrapper state: `EXPIMAP_init` applied to a
2-terms × 3-genes mask with `n_ext = 1`, `n_ext_m = 1`, `use_hsic =
false` (used to instantiate the construction theorems). -/
def sampleState1 : EXPIMAPState :=
  { condition_key_ := none, conditions_ := [], hidden_layer_sizes_ := [],
    dr_rate_ := 0, recon_loss_ := "nb", use_bn_ := false, use_ln_ := true,
    input_dim_ := 3, use_l_encoder_ := false, decoder_last_layer_ := none,
    mask_ := [[1, 0, 0], [0, 1, 0]], latent_dim_ := 2, ext_mask_ := none,
    n_ext_ := 1, n_ext_m_ := 1, soft_mask_ := false, soft_ext_mask_ := false,
    use_hsic_ := false, hsic_one_vs_all_ := false, is_trained_ := false }

/-- A concrete constructed wrapper state: `EXPIMAP_init` applied to a
1-term × 3-genes mask with `n_ext = 1`, `n_ext_m = 0`, `use_hsic = true`
(used to instantiate the HSIC-flag theorem). -/
def sampleState2 : EXPIMAPState :=
  { condition_key_ := none, conditions_ := [], hidden_layer_sizes_ := [],
    dr_rate_ := 0, recon_loss_ := "nb", use_bn_ := false, use_ln_ := true,
    input_dim_ := 3, use_l_encoder_ := false, decoder_last_layer_ := none,
    mask_ := [[1, 0, 0]], latent_dim_ := 1, ext_mask_ := none,
    n_ext_ := 1, n_ext_m_ := 0, soft_mask_ := false, soft_ext_mask_ := false,
    use_hsic_ := true, hsic_one_vs_all_ := false, is_trained_ := false }

/-! ## Helper lemmas -/

theorem map_range_getElem {α : Type} (f : ℕ → α) {n j : ℕ} (h : j < n) :
    ((List.range n).map f)[j]? = some (f j) := by
  simp [List.getElem?_map, List.getElem?_range, h]

theorem init_ok_state
    (obsUnique : String → List String) (varm : String → Option Mat) (n_vars : ℕ)
    (condition_key : Option String) (conditions : Option (List String))
    (hidden_layer_sizes : List ℕ) (dr_rate : ℚ) (recon_loss : String)
    (use_l_encoder : Bool) (use_bn : Bool) (use_ln : Bool)
    (mask : Option Mat) (mask_key : String) (decoder_last_layer : Option String)
    (soft_mask : Bool) (n_ext : ℕ) (n_ext_m : ℕ)
    (use_hsic : Bool) (hsic_one_vs_all : Bool)
    (ext_mask : Option Mat) (soft_ext_mask : Bool)
    (s : EXPIMAPState)
    (h : EXPIMAP_init obsUnique varm n_vars condition_key conditions
      hidden_layer_sizes dr_rate recon_loss use_l_encoder use_bn use_ln
      mask mask_key decoder_last_layer soft_mask n_ext n_ext_m
      use_hsic hsic_one_vs_all ext_mask soft_ext_mask = .ok s) :
    s.latent_dim_ = s.mask_.length ∧ s.n_ext_ = n_ext ∧ s.n_ext_m_ = n_ext_m ∧
      s.use_hsic_ = (use_hsic && decide (0 < n_ext)) := by
  unfold EXPIMAP_init at h
  split at h
  · cases h
  · injection h with h'
    subst h'
    exact ⟨rfl, rfl, rfl, rfl⟩

/-! ## Claim C1 -/

/-- Claim C1, counterexample: constructing from a mask with 2 rows and
extension sizes `n_ext = 1`, `n_ext_m = 1` records `latent_dim_ = 2`,
which differs from `n_terms + n_ext + n_ext_m = 4` — the source stores
`self.latent_dim_ = len(self.mask_)` without the extension sizes. -/
theorem C1_counterexample :
    (EXPIMAP_init (fun _ => []) (fun _ => none) 3 none (some []) [] 0 ("nb")
      false false true (some [[1, 0, 0], [0, 1, 0]]) ("I") none
      false 1 1 false false none false).map (fun s => s.latent_dim_) =
        Except.ok 2
    ∧ (2 : ℕ) ≠ 2 + 1 + 1 := ⟨rfl, by decide⟩

/-- Claim C1 (amended): for every successful model construction, the
latent dimension recorded by the wrapper (`latent_dim_`) equals the
number of rows of the resolved mask (`n_terms`) alone; the extension
sizes `n_ext` and `n_ext_m` do not enter it. -/
theorem C1_latent_dim_eq_n_terms
    (obsUnique : String → List String) (varm : String → Option Mat) (n_vars : ℕ)
    (condition_key : Option String) (conditions : Option (List String))
    (hidden_layer_sizes : List ℕ) (dr_rate : ℚ) (recon_loss : String)
    (use_l_encoder : Bool) (use_bn : Bool) (use_ln : Bool)
    (mask : Option Mat) (mask_key : String) (decoder_last_layer : Option String)
    (soft_mask : Bool) (n_ext : ℕ) (n_ext_m : ℕ)
    (use_hsic : Bool) (hsic_one_vs_all : Bool)
    (ext_mask : Option Mat) (soft_ext_mask : Bool)
    (s : EXPIMAPState)
    (h : EXPIMAP_init obsUnique varm n_vars condition_key conditions
      hidden_layer_sizes dr_rate recon_loss use_l_encoder use_bn use_ln
      mask mask_key decoder_last_layer soft_mask n_ext n_ext_m
      use_hsic hsic_one_vs_all ext_mask soft_ext_mask = .ok s) :
    s.latent_dim_ = s.mask_.length := by
  unfold EXPIMAP_init at h
  split at h
  · cases h
  · injection h with h'
    subst h'
    rfl

/-- Claim C1, witness: the amended theorem applied to the concrete
construction of `sampleState1` (2-row mask, `n_ext = 1`, `n_ext_m = 1`). -/
theorem C1_witness : sampleState1.latent_dim_ = sampleState1.mask_.length :=
  C1_latent_dim_eq_n_terms (fun _ => []) (fun _ => none) 3 none (some []) [] 0
    ("nb") false false true (some [[1, 0, 0], [0, 1, 0]]) ("I") none
    false 1 1 false false none false sampleState1 rfl

/-! ## Claim C7 -/

/-- Claim C7, counterexample: with `use_hsic = true`, `n_ext = 0` and
`n_ext_m = 1` an extension latent dimension exists
(`n_ext + n_ext_m = 1 > 0`), yet the stored flag is disabled — the
source computes `use_hsic and n_ext > 0`, ignoring `n_ext_m`. -/
theorem C7_counterexample :
    (EXPIMAP_init (fun _ => []) (fun _ => none) 3 none (some []) [] 0 ("nb")
      false false true (some [[1, 0, 0]]) ("I") none
      false 0 1 true false none false).map (fun s => s.use_hsic_) =
        Except.ok false
    ∧ 0 < 0 + 1 := ⟨rfl, by decide⟩

/-- Claim C7 (amended): for every successful construction with
`use_hsic = true`, the stored flag `use_hsic_` is enabled iff the
number of unconstrained extension dimensions `n_ext` is positive
(masked extension dimensions `n_ext_m` do not count); with
`use_hsic = false` it is always disabled. -/
theorem C7_use_hsic_iff
    (obsUnique : String → List String) (varm : String → Option Mat) (n_vars : ℕ)
    (condition_key : Option String) (conditions : Option (List String))
    (hidden_layer_sizes : List ℕ) (dr_rate : ℚ) (recon_loss : String)
    (use_l_encoder : Bool) (use_bn : Bool) (use_ln : Bool)
    (mask : Option Mat) (mask_key : String) (decoder_last_layer : Option String)
    (soft_mask : Bool) (n_ext : ℕ) (n_ext_m : ℕ)
    (use_hsic : Bool) (hsic_one_vs_all : Bool)
    (ext_mask : Option Mat) (soft_ext_mask : Bool)
    (s : EXPIMAPState)
    (h : EXPIMAP_init obsUnique varm n_vars condition_key conditions
      hidden_layer_sizes dr_rate recon_loss use_l_encoder use_bn use_ln
      mask mask_key decoder_last_layer soft_mask n_ext n_ext_m
      use_hsic hsic_one_vs_all ext_mask soft_ext_mask = .ok s) :
    (use_hsic = true → (s.use_hsic_ = true ↔ 0 < n_ext))
    ∧ (use_hsic = false → s.use_hsic_ = false) := by
  unfold EXPIMAP_init at h
  split at h
  · cases h
  · injection h with h'
    subst h'
    constructor
    · intro hu
      simp [hu]
    · intro hu
      simp [hu]

/-- Claim C7, witness: the amended theorem applied to the concrete
construction of `sampleState2` (`use_hsic = true`, `n_ext = 1`). -/
theorem C7_witness :
    (true = true → (sampleState2.use_hsic_ = true ↔ 0 < 1))
    ∧ (true = false → sampleState2.use_hsic_ = false) :=
  C7_use_hsic_iff (fun _ => []) (fun _ => none) 3 none (some []) [] 0
    ("nb") false false true (some [[1, 0, 0]]) ("I") none
    false 1 0 true false none false sampleState2 rfl

/-! ## Claim C9 -/

/-- Claim C9: calling `load_query_data` with `new_n_ext_m` provided but
`new_ext_mask` absent fails with
`ValueError('Provide new ext_mask')`; the error return structurally
precedes the `super().load_query_data(**params)` delegation, so the
`delegate` collaborator is never invoked and no new model value exists. -/
theorem C9_load_query_requires_ext_mask {M : Type} (delegate : QueryParams → M)
    (freeze freeze_expression unfreeze_ext remove_dropout : Bool)
    (new_n_ext : Option ℕ) (k : ℕ) (new_soft_ext_mask : Bool) :
    EXPIMAP_load_query_data delegate freeze freeze_expression unfreeze_ext
      remove_dropout new_n_ext (some k) none new_soft_ext_mask =
      .error .provideNewExtMask := by
  unfold EXPIMAP_load_query_data load_query_data_params
  cases new_n_ext <;> rfl

/-! ## `terms_genes` helper lemmas -/

theorem terms_genes_go_ok (var_names : List String) (mask : Mat) :
    ∀ (ts : List String) (i : ℕ), i + ts.length ≤ mask.length →
    ∃ res, terms_genes_go var_names mask i ts = .ok res ∧
      res.length = ts.length ∧
      ∀ k, k < ts.length →
        res[k]? = some (ts.getD k (""), rowGenes var_names (mask.getD (i + k) [])) := by
  intro ts
  induction ts with
  | nil =>
    intro i _
    exact ⟨[], rfl, rfl, fun k hk => absurd hk (by simp)⟩
  | cons t ts ih =>
    intro i hlen
    have hi : i < mask.length := by
      simp only [List.length_cons] at hlen
      omega
    obtain ⟨res', heq', hlen', hidx'⟩ := ih (i + 1) (by
      simp only [List.length_cons] at hlen
      omega)
    refine ⟨(t, rowGenes var_names (mask.getD i [])) :: res', ?_, ?_, ?_⟩
    · unfold terms_genes_go
      rw [List.getElem?_eq_getElem hi, heq']
      have : mask.getD i [] = mask[i] := List.getD_eq_getElem mask [] hi
      rw [this]
      rfl
    · simp [hlen']
    · intro k hk
      cases k with
      | zero => simp
      | succ k' =>
        simp only [List.getElem?_cons_succ, List.getD_cons_succ]
        have hk' : k' < ts.length := by
          simp only [List.length_cons] at hk
          omega
        have harith : i + (k' + 1) = (i + 1) + k' := by omega
        rw [harith]
        exact hidx' k' hk'

theorem terms_genes_go_overflow (var_names : List String) (mask : Mat) :
    ∀ (ts : List String) (i : ℕ), mask.length < i + ts.length → ts ≠ [] →
    terms_genes_go var_names mask i ts = .error .indexError := by
  intro ts
  induction ts with
  | nil => intro i _ hne; exact absurd rfl hne
  | cons t ts ih =>
    intro i hlen _
    by_cases hi : i < mask.length
    · have hne : ts ≠ [] := by
        intro hnil
        subst hnil
        simp only [List.length_cons, List.length_nil] at hlen
        omega
      unfold terms_genes_go
      rw [List.getElem?_eq_getElem hi]
      rw [ih (i + 1) (by simp only [List.length_cons] at hlen; omega) hne]
      rfl
    · unfold terms_genes_go
      rw [List.getElem?_eq_none (by omega)]

theorem rowGenes_binary (var_names : List String) (row : List ℚ)
    (hb : ∀ x ∈ row, x = 0 ∨ x = 1) :
    rowGenes var_names row =
      ((var_names.zip row).filter (fun p => decide (p.2 = 1))).map (fun p => p.1) := by
  unfold rowGenes
  congr 1
  apply List.filter_congr
  intro p hp
  obtain ⟨a, b⟩ := p
  have hmem : b ∈ row := (List.of_mem_zip hp).2
  rcases hb b hmem with h0 | h1
  · simp [h0]
  · simp [h1]

/-! ## Claim C8 -/

/-- Claim C8: `terms_genes` on an explicit term-name list raises
`ValueError` iff the list's length differs from the number of mask rows;
on a correct-length list it returns, in order, each term name paired
with exactly the gene names whose mask entry in the corresponding row
is 1 (the hypothesis restricts to binary masks, which is the data-model
invariant; the source selects by non-zeroness via the `dtype=bool`
cast). -/
theorem C8_terms_genes_list
    (uns : String → List String) (var_names : List String) (mask : Mat)
    (l : List String)
    (hbin : ∀ row ∈ mask, ∀ x ∈ row, x = 0 ∨ x = 1) :
    (terms_genes uns var_names mask (.list l) = .error .termsLength ↔
      l.length ≠ mask.length)
    ∧ (l.length = mask.length →
      ∃ res, terms_genes uns var_names mask (.list l) = .ok res ∧
        res.length = l.length ∧
        ∀ i, i < l.length →
          res[i]? = some (l.getD i (""),
            ((var_names.zip (mask.getD i [])).filter
              (fun p => decide (p.2 = 1))).map (fun p => p.1))) := by
  have hmain : l.length = mask.length →
      ∃ res, terms_genes uns var_names mask (.list l) = .ok res ∧
        res.length = l.length ∧
        ∀ i, i < l.length →
          res[i]? = some (l.getD i (""),
            ((var_names.zip (mask.getD i [])).filter
              (fun p => decide (p.2 = 1))).map (fun p => p.1)) := by
    intro hlen
    obtain ⟨res, hok, hrlen, hidx⟩ := terms_genes_go_ok var_names mask l 0 (by omega)
    refine ⟨res, ?_, hrlen, ?_⟩
    · show (if l.length ≠ mask.length then Except.error PyError.termsLength
        else terms_genes_go var_names mask 0 l) = Except.ok res
      rw [if_neg (by omega)]
      exact hok
    · intro i hi
      have h0i := hidx i hi
      rw [Nat.zero_add] at h0i
      rw [h0i]
      have hi' : i < mask.length := by omega
      have hrowmem : mask.getD i [] ∈ mask := by
        rw [List.getD_eq_getElem mask [] hi']
        exact List.getElem_mem hi'
      rw [rowGenes_binary var_names _ (hbin _ hrowmem)]
  refine ⟨⟨?_, ?_⟩, hmain⟩
  · intro herr hlen
    obtain ⟨res, hok, _, _⟩ := hmain hlen
    rw [hok] at herr
    cases herr
  · intro hlen
    show (if l.length ≠ mask.length then Except.error PyError.termsLength
      else terms_genes_go var_names mask 0 l) = Except.error PyError.termsLength
    rw [if_pos hlen]

/-- Claim C8, witness: the theorem applied to a 2-term × 3-gene binary
mask and the correct-length term list `["A", "B"]`. -/
theorem C8_witness :
    (terms_genes (fun _ => []) [("g1"), ("g2"), ("g3")] [[1, 0, 0], [0, 1, 1]]
        (TermsArg.list [("A"), ("B")]) = .error .termsLength ↔
      ([("A"), ("B")] : List String).length ≠ ([[1, 0, 0], [0, 1, 1]] : Mat).length)
    ∧ (([("A"), ("B")] : List String).length = ([[1, 0, 0], [0, 1, 1]] : Mat).length →
      ∃ res, terms_genes (fun _ => []) [("g1"), ("g2"), ("g3")]
          [[1, 0, 0], [0, 1, 1]] (TermsArg.list [("A"), ("B")]) = .ok res ∧
        res.length = ([("A"), ("B")] : List String).length ∧
        ∀ i, i < ([("A"), ("B")] : List String).length →
          res[i]? = some (([("A"), ("B")] : List String).getD i (""),
            ((([("g1"), ("g2"), ("g3")] : List String).zip
                (([[1, 0, 0], [0, 1, 1]] : Mat).getD i [])).filter
              (fun p => decide (p.2 = 1))).map (fun p => p.1))) :=
  C8_terms_genes_list (fun _ => []) [("g1"), ("g2"), ("g3")]
    [[1, 0, 0], [0, 1, 1]] [("A"), ("B")] (by decide)

/-! ## Claim C10 -/

/-- Claim C10: when `terms` is a string, the term list is read from
`adata.uns` without any length validation: a stored list longer than the
number of mask rows runs into the out-of-range numpy row access `I[i]`
(an index error, not the configuration `ValueError`), and a shorter
list silently returns one entry per stored term, i.e. fewer entries than
mask rows. -/
theorem C10_terms_genes_key_no_check
    (uns : String → List String) (var_names : List String) (mask : Mat)
    (s : String) :
    (mask.length < (uns s).length →
      terms_genes uns var_names mask (.key s) = .error .indexError)
    ∧ ((uns s).length < mask.length →
      ∃ res, terms_genes uns var_names mask (.key s) = .ok res ∧
        res.length = (uns s).length) := by
  constructor
  · intro hlen
    unfold terms_genes
    refine terms_genes_go_overflow var_names mask (uns s) 0 (by omega) ?_
    intro hnil
    rw [hnil] at hlen
    simp at hlen
  · intro hlen
    obtain ⟨res, hok, hrlen, _⟩ := terms_genes_go_ok var_names mask (uns s) 0 (by omega)
    exact ⟨res, hok, hrlen⟩

/-- Claim C10, witness: a stored 2-term list against a 1-row mask hits
the index error; a stored 1-term list against a 2-row mask silently
returns a single entry. -/
theorem C10_witness :
    terms_genes (fun _ => [("A"), ("B")]) [("g1"), ("g2")] [[1, 0]]
      (TermsArg.key ("t")) = .error .indexError
    ∧ ∃ res, terms_genes (fun _ => [("A")]) [("g1"), ("g2")] [[1, 0], [0, 1]]
        (TermsArg.key ("t")) = .ok res ∧ res.length = 1 :=
  ⟨(C10_terms_genes_key_no_check (fun _ => [("A"), ("B")]) [("g1"), ("g2")]
      [[1, 0]] ("t")).1 (by decide),
   (C10_terms_genes_key_no_check (fun _ => [("A")]) [("g1"), ("g2")]
      [[1, 0], [0, 1]] ("t")).2 (by decide)⟩

/-! ## Claim C2 -/

/-- Claim C2: whenever `comparison` is not the literal string `"rest"`
and the set of its Python elements (list elements, or the characters of
a string) is fully contained in the resolved category set, `latent_enrich`
fails with `ValueError`; the guard fires before the per-category loop
and before the `adata.uns[key_added]` write, so the error carries no
scores value at all. -/
theorem C2_comparison_guard
    (colUnique : String → List String) (groups : GroupsArg)
    (comparison : StrOrList) (catScores : String → List TermScore)
    (cats : List String)
    (hcats : resolveCats colUnique groups = .ok cats)
    (hnr : isRestLiteral comparison = false)
    (hsub : ∀ x ∈ pySetElems comparison, x ∈ cats) :
    latent_enrich colUnique groups comparison catScores =
      .error .comparisonGuard := by
  have hguard : comparisonGuardFails comparison cats = true := by
    unfold comparisonGuardFails
    rw [hnr]
    simp only [Bool.not_false, Bool.true_and, List.all_eq_true]
    intro x hx
    exact decide_eq_true (hsub x hx)
  unfold latent_enrich
  rw [hcats]
  show (if comparisonGuardFails comparison cats = true then throw PyError.comparisonGuard
    else pure ((cats.filter (fun cat =>
        !pyInComparison cat (normalizeComparison comparison))).map
      (fun cat => (cat, catScores cat))) :
    Except PyError (List (String × List TermScore))) = .error .comparisonGuard
  rw [if_pos hguard]
  rfl

/-- Claim C2, witness: the theorem applied to resolved categories
`["a", "b"]` and the fully-contained comparison list `["a"]`. -/
theorem C2_witness :
    latent_enrich (fun _ => [("a"), ("b")]) (GroupsArg.str ("g"))
      (StrOrList.list [("a")]) (fun _ => []) = .error .comparisonGuard :=
  C2_comparison_guard (fun _ => [("a"), ("b")]) (GroupsArg.str ("g"))
    (StrOrList.list [("a")]) (fun _ => []) [("a"), ("b")] rfl rfl (by decide)

/-! ## Claim C5 -/

theorem countsSign_eq (v : List ℚ) :
    countsSign v =
      if numNz v = 0 then 0
      else if 1/2 < countsRatio v then 1
      else if countsRatio v < 1/2 then -1
      else 0 := by
  unfold countsSign
  by_cases h0 : numNz v = 0
  · simp [h0]
  · simp only [h0, if_false]
    rcases lt_trichotomy (countsRatio v) (1/2 : ℚ) with hlt | heq | hgt
    · simp only [if_neg (not_lt.mpr hlt.le), if_pos hlt]
      norm_num
    · rw [heq]
      norm_num
    · simp only [if_pos hgt]
      norm_num

/-- Claim C5: in `latent_directions` with method `"counts"`, per term
column `j` of the decoder weight matrix the written sign entry is `+1`
when the positive / non-zero weight ratio exceeds `0.5`, `-1` when below
`0.5`, `0` when exactly `0.5`, and forced to `0` when the column has no
non-zero weight; the written confidence entry is
`|ratio - 0.5| / 0.5`, clamped to `0` for columns with no non-zero
weight. -/
theorem C5_counts_sign_confidence (terms_weights : Mat) (key_added : String)
    (j : ℕ) (hj : j < nColsM terms_weights) :
    ∃ signs confidence,
      latent_directions ("counts") true terms_weights key_added =
        .ok [(key_added, signs), (key_added ++ "_confindence", confidence)]
      ∧ signs[j]? = some
          (if numNz (col terms_weights j) = 0 then 0
           else if 1/2 < countsRatio (col terms_weights j) then 1
           else if countsRatio (col terms_weights j) < 1/2 then -1
           else 0)
      ∧ confidence[j]? = some
          (if numNz (col terms_weights j) = 0 then 0
           else |countsRatio (col terms_weights j) - 1/2| / (1/2)) := by
  refine ⟨(transposeM terms_weights).map countsSign,
    (transposeM terms_weights).map countsConfidence, rfl, ?_, ?_⟩
  · unfold transposeM
    rw [List.map_map]
    rw [map_range_getElem _ hj]
    rw [Function.comp_apply, countsSign_eq]
  · unfold transposeM
    rw [List.map_map]
    rw [map_range_getElem _ hj]
    rfl

/-- Claim C5, witness: the theorem applied to a 3-gene × 3-term weight
matrix whose columns have ratio 1 (sign `+1`), ratio 1/2 (sign `0`) and
no non-zero weight (sign and confidence forced to `0`). -/
theorem C5_witness :
    ∃ signs confidence,
      latent_directions ("counts") true [[1, 1, 0], [2, -1, 0], [0, 0, 0]]
          ("directions") =
        .ok [(("directions"), signs), ("directions" ++ "_confindence", confidence)]
      ∧ signs[2]? = some
          ((if numNz (col [[1, 1, 0], [2, -1, 0], [0, 0, 0]] 2) = 0 then 0
           else if 1/2 < countsRatio (col [[1, 1, 0], [2, -1, 0], [0, 0, 0]] 2) then 1
           else if countsRatio (col [[1, 1, 0], [2, -1, 0], [0, 0, 0]] 2) < 1/2 then -1
           else 0 : ℚ))
      ∧ confidence[2]? = some
          ((if numNz (col [[1, 1, 0], [2, -1, 0], [0, 0, 0]] 2) = 0 then 0
           else |countsRatio (col [[1, 1, 0], [2, -1, 0], [0, 0, 0]] 2) - 1/2| / (1/2) : ℚ)) :=
  C5_counts_sign_confidence [[1, 1, 0], [2, -1, 0], [0, 0, 0]] ("directions") 2
    (by decide)

/-! ## Claim C6 -/

/-- Claim C6 (code bug): with method `"counts"` and
`get_confidence=True`, the source writes the confidence array under
`key_added + '_confindence'` — a misspelling of the documented
`'_confidence'` suffix.  Evaluating the embedded code at
`key_added = "directions"` shows the keys actually written, and that the
key the claim (and the spec) name is not among them. -/
theorem C6_confindence_key_mismatch :
    latent_directions ("counts") true [[1, -1], [2, 0]] ("directions") =
      .ok [(("directions"), [1, -1]), (("directions_confindence"), [1, 1])]
    ∧ ("directions" ++ "_confidence") ≠ ("directions_confindence")
    ∧ ("directions" ++ "_confidence") ∉
        [("directions"), ("directions_confindence")] := by
  refine ⟨?_, by decide, by decide⟩
  norm_num [latent_directions, transposeM, nColsM, col, countsSign, countsRatio,
    numNz, upregGenes, countsConfidence, List.range_succ, List.filter]
  rw [if_neg (by decide : ¬("counts" = "sum"))]
  norm_num [abs_of_nonneg]
  rfl

/-! ## `latent_enrich` per-category lemmas -/

theorem meansCol_length (dirs : Option (List ℚ)) (sel : Option (List ℕ))
    (m : Mat) (j : ℕ) : (meansCol dirs sel m j).length = m.length := by
  unfold meansCol col selectTermsCols applyDirections
  cases sel <;> cases dirs <;> simp

theorem varsCol_length (sel : Option (List ℕ)) (v : Mat) (j : ℕ) :
    (varsCol sel v j).length = v.length := by
  unfold varsCol col selectTermsCols
  cases sel <;> simp

theorem enrich_cat_nonexact_getElem (log : ℚ → ℚ) (dirs : Option (List ℚ))
    (sel : Option (List ℕ)) (z0 z1 : Mat) {j : ℕ}
    (hj : j < nColsT dirs sel z0) :
    (enrich_cat_nonexact log dirs sel z0 z1)[j]? =
      some (termScores log
        (toReduceCol (meansCol dirs sel z0 j) (meansCol dirs sel z1 j))
        (decide (absSum (meansCol dirs sel z0 j) = 0) ||
         decide (absSum (meansCol dirs sel z1 j) = 0))) := by
  unfold enrich_cat_nonexact
  exact map_range_getElem _ hj

theorem enrich_cat_exact_getElem (sqrt erfc log : ℚ → ℚ)
    (dirs : Option (List ℚ)) (sel : Option (List ℕ))
    (means0 vars0 means1 vars1 : Mat) {j : ℕ}
    (hj : j < nColsT dirs sel means0) :
    (enrich_cat_exact sqrt erfc log dirs sel means0 vars0 means1 vars1)[j]? =
      some (termScores log
        (toReduceExactCol sqrt erfc (meansCol dirs sel means0 j)
          (varsCol sel vars0 j) (meansCol dirs sel means1 j) (varsCol sel vars1 j))
        (decide (absSum (meansCol dirs sel means0 j) = 0) ||
         decide (absSum (meansCol dirs sel means1 j) = 0))) := by
  unfold enrich_cat_exact
  exact map_range_getElem _ hj

theorem termScores_true (log : ℚ → ℚ) (tr : List ℚ) :
    termScores log tr true = ⟨0, 0, 0⟩ := rfl

theorem zCol_self (sqrt : ℚ → ℚ) :
    ∀ (a b d : List ℚ), b.length = a.length → d.length = a.length →
      zCol sqrt a b a d = List.replicate a.length 0 := by
  intro a
  induction a with
  | nil => intro b d _ _; rfl
  | cons x xs ih =>
    intro b d hb hd
    cases b with
    | nil => exact absurd hb (by simp)
    | cons bv bs =>
      cases d with
      | nil => exact absurd hd (by simp)
      | cons dv ds =>
        show zStat sqrt x bv x dv :: zCol sqrt xs bs xs ds =
          List.replicate (xs.length + 1) 0
        rw [List.replicate_succ]
        congr 1
        · unfold zStat
          rw [sub_self, zero_div]
        · exact ih bs ds (by simpa using hb) (by simpa using hd)

theorem termScores_half (log : ℚ → ℚ) (c : ℕ) (hc : 0 < c) :
    termScores log (List.replicate c ((1 : ℚ)/2)) false = ⟨1/2, 1/2, 0⟩ := by
  have hmean : listMean (List.replicate c ((1 : ℚ)/2)) = 1/2 := by
    unfold listMean
    rw [List.sum_replicate, List.length_replicate, nsmul_eq_mul, mul_comm,
      mul_div_assoc, div_self (by exact_mod_cast hc.ne' : (c : ℚ) ≠ 0), mul_one]
  have h12 : (1 : ℚ) - 1/2 = 1/2 := by norm_num
  unfold termScores
  simp only [Bool.false_eq_true, if_false, TermScore.mk.injEq]
  refine ⟨hmean, ?_, ?_⟩
  · rw [hmean, h12]
  · rw [hmean, h12, sub_self]

/-! ## Claim C3 -/

/-- Claim C3: in `latent_enrich`, for every term column whose group-A
sample (or group-B sample) has absolute values summing to exactly 0
across all sampled cells, the stored `p_h0`, `p_h1` and `bf` entries for
that term are forced to exactly 0 — whatever the other group's values
and in both the `exact=False` and the `exact=True` branch (where the
mask is computed on the transformed posterior means). -/
theorem C3_zero_sum_forces_zero
    (log sqrt erfc : ℚ → ℚ) (dirs : Option (List ℚ)) (sel : Option (List ℕ))
    (z0 z1 means0 vars0 means1 vars1 : Mat) (j : ℕ)
    (hjn : j < nColsT dirs sel z0)
    (hzn : absSum (meansCol dirs sel z0 j) = 0 ∨
      absSum (meansCol dirs sel z1 j) = 0)
    (hje : j < nColsT dirs sel means0)
    (hze : absSum (meansCol dirs sel means0 j) = 0 ∨
      absSum (meansCol dirs sel means1 j) = 0) :
    (enrich_cat_nonexact log dirs sel z0 z1)[j]? = some ⟨0, 0, 0⟩
    ∧ (enrich_cat_exact sqrt erfc log dirs sel
        means0 vars0 means1 vars1)[j]? = some ⟨0, 0, 0⟩ := by
  constructor
  · rw [enrich_cat_nonexact_getElem log dirs sel z0 z1 hjn]
    have hzm : (decide (absSum (meansCol dirs sel z0 j) = 0) ||
        decide (absSum (meansCol dirs sel z1 j) = 0)) = true := by
      rcases hzn with h | h <;> simp [h]
    rw [hzm, termScores_true]
  · rw [enrich_cat_exact_getElem sqrt erfc log dirs sel
      means0 vars0 means1 vars1 hje]
    have hzm : (decide (absSum (meansCol dirs sel means0 j) = 0) ||
        decide (absSum (meansCol dirs sel means1 j) = 0)) = true := by
      rcases hze with h | h <;> simp [h]
    rw [hzm, termScores_true]

/-- Claim C3, witness: the theorem applied with identity stand-ins for
the numeric library functions, no directions/select transforms, a
group-A point-estimate sample `[[0, 1]]` whose term-0 column is
all-zero against an arbitrary group-B sample `[[5, 2]]`, and posterior
means `[[0]]` (all-zero) against `[[7]]`. -/
theorem C3_witness :
    (enrich_cat_nonexact id none none [[0, 1]] [[5, 2]])[0]? = some ⟨0, 0, 0⟩
    ∧ (enrich_cat_exact id id id none none [[0]] [[1]] [[7]] [[1]])[0]? =
        some ⟨0, 0, 0⟩ :=
  C3_zero_sum_forces_zero id id id none none [[0, 1]] [[5, 2]] [[0]] [[1]]
    [[7]] [[1]] 0 (by decide)
    (Or.inl (by norm_num [meansCol, selectTermsCols, applyDirections, col, absSum]))
    (by decide)
    (Or.inl (by norm_num [meansCol, selectTermsCols, applyDirections, col, absSum]))

/-! ## Claim C4 -/

/-- Claim C4: in the `exact=True` branch, for a term column whose
per-cell posterior means agree between the two sampled groups (after the
directions/select transforms), with finite positive per-cell variances
and not flagged by the zero-sum mask: every cell's standardized
difference `z` is 0, every cell's `to_reduce` entry is
`0.5` (`0.5 * erfc(0) = 0.5`), and the stored triple is
`p_h0 = p_h1 = 0.5`, `bf = 0`.  `erfc 0 = 1` is the defining property of
the external `scipy.special.erfc` used by the source. -/
theorem C4_exact_equal_means
    (sqrt erfc log : ℚ → ℚ) (dirs : Option (List ℚ)) (sel : Option (List ℕ))
    (means0 vars0 means1 vars1 : Mat) (j : ℕ)
    (herfc : erfc 0 = 1)
    (hj : j < nColsT dirs sel means0)
    (heq : meansCol dirs sel means0 j = meansCol dirs sel means1 j)
    (hv0 : ∀ x ∈ varsCol sel vars0 j, 0 < x)
    (hv1 : ∀ x ∈ varsCol sel vars1 j, 0 < x)
    (hnz : absSum (meansCol dirs sel means0 j) ≠ 0)
    (hc : 0 < means0.length)
    (hl0 : vars0.length = means0.length)
    (hl2 : vars1.length = means0.length) :
    zCol sqrt (meansCol dirs sel means0 j) (varsCol sel vars0 j)
        (meansCol dirs sel means1 j) (varsCol sel vars1 j) =
      List.replicate means0.length 0
    ∧ toReduceExactCol sqrt erfc (meansCol dirs sel means0 j)
        (varsCol sel vars0 j) (meansCol dirs sel means1 j)
        (varsCol sel vars1 j) = List.replicate means0.length (1/2)
    ∧ (enrich_cat_exact sqrt erfc log dirs sel
        means0 vars0 means1 vars1)[j]? = some ⟨1/2, 1/2, 0⟩ := by
  have ha : (meansCol dirs sel means0 j).length = means0.length :=
    meansCol_length dirs sel means0 j
  have hb : (varsCol sel vars0 j).length = means0.length := by
    rw [varsCol_length]
    exact hl0
  have hd : (varsCol sel vars1 j).length = means0.length := by
    rw [varsCol_length]
    exact hl2
  have hzc : zCol sqrt (meansCol dirs sel means0 j) (varsCol sel vars0 j)
      (meansCol dirs sel means1 j) (varsCol sel vars1 j) =
      List.replicate means0.length 0 := by
    rw [← heq, ← ha]
    exact zCol_self sqrt _ _ _ (by omega) (by omega)
  have htr : toReduceExactCol sqrt erfc (meansCol dirs sel means0 j)
      (varsCol sel vars0 j) (meansCol dirs sel means1 j)
      (varsCol sel vars1 j) = List.replicate means0.length (1/2) := by
    unfold toReduceExactCol
    rw [hzc, List.map_replicate, herfc, mul_one]
  refine ⟨hzc, htr, ?_⟩
  rw [enrich_cat_exact_getElem sqrt erfc log dirs sel
    means0 vars0 means1 vars1 hj]
  rw [htr]
  have hzm : (decide (absSum (meansCol dirs sel means0 j) = 0) ||
      decide (absSum (meansCol dirs sel means1 j) = 0)) = false := by
    rw [← heq]
    simp [hnz]
  rw [hzm]
  exact congrArg some (termScores_half log means0.length hc)

/-- Claim C4, witness: the theorem applied with `sqrt = log = id`, the
stand-in `erfc x = 1 - x` (which satisfies `erfc 0 = 1`), no transforms,
equal one-cell posterior means `[[3]]` and `[[3]]` and positive
variances `[[1]]` and `[[2]]`. -/
theorem C4_witness :
    zCol id (meansCol none none [[3]] 0) (varsCol none [[1]] 0)
        (meansCol none none [[3]] 0) (varsCol none [[2]] 0) =
      List.replicate 1 0
    ∧ toReduceExactCol id (fun x => 1 - x) (meansCol none none [[3]] 0)
        (varsCol none [[1]] 0) (meansCol none none [[3]] 0)
        (varsCol none [[2]] 0) = List.replicate 1 (1/2)
    ∧ (enrich_cat_exact id (fun x => 1 - x) id none none
        [[3]] [[1]] [[3]] [[2]])[0]? = some ⟨1/2, 1/2, 0⟩ :=
  C4_exact_equal_means id (fun x => 1 - x) id none none [[3]] [[1]] [[3]] [[2]]
    0 (by norm_num) (by decide) rfl
    (by norm_num [varsCol, selectTermsCols, col])
    (by norm_num [varsCol, selectTermsCols, col])
    (by norm_num [absSum, meansCol, selectTermsCols, applyDirections, col])
    (by decide) rfl rfl

end Scarches
